import Mathlib

/-!
Verification development for the OpenChain recommendation system.

The frontend (Next.js routes, Graph component) is embedded from the
TypeScript sources under `src/app`.  The backend recommendation core
(the `recommend` module imported by `backend/main.py`) is not present
in source form in the repository; its algorithms are documented in
detail in the in-repo documentation components
(`Documentation`/`AlgorithmExplain`, files `src/unnamed/part_002` and
`src/unnamed/part_003`) and in `spec.md`.  Definitions for that part
are modelled from the spec, as indicated by their doc comments.

Real-valued transcendental operations (natural logarithm, square root)
are abstracted as parameters bundled with exactly the order-theoretic
facts the formulas rely on, so that every definition stays executable
over `ℚ`.
-/

namespace OpenChain

/-- Modelled from the spec: abstraction of the natural-logarithm based
normalisations (`ln(x+1)/ln(base)`) used throughout the scoring code of
the missing backend `recommend` module.  `lg x` stands for `ln (x+1)`
(hence nonnegative), and `ln10k`, `ln1k`, `ln100` stand for the positive
constants `ln 10000`, `ln 1000`, `ln 100`. -/
structure LogModel where
  lg : ℕ → ℚ
  lg_nonneg : ∀ x, 0 ≤ lg x
  ln10k : ℚ
  ln1k : ℚ
  ln100 : ℚ
  ln10k_pos : 0 < ln10k
  ln1k_pos : 0 < ln1k
  ln100_pos : 0 < ln100

/-- Modelled from the spec: abstraction of the square root used by the
cosine-similarity denominator in the missing backend `recommend`
module.  The two facts recorded are the ones the `[0,1]` bound of the
cosine relies on: square roots of nonnegative numbers are nonnegative,
and `sqrt x` squared dominates `x`. -/
structure SqrtModel where
  sqrt : ℚ → ℚ
  sqrt_nonneg : ∀ x, 0 ≤ x → 0 ≤ sqrt x
  le_sq_sqrt : ∀ x, 0 ≤ x → x ≤ (sqrt x) ^ 2

/-- A concrete instance of `LogModel`, usable to evaluate the scoring
functions on concrete inputs. -/
def logTest : LogModel where
  lg := fun x => (x : ℚ)
  lg_nonneg := fun x => by positivity
  ln10k := 10
  ln1k := 7
  ln100 := 5
  ln10k_pos := by norm_num
  ln1k_pos := by norm_num
  ln100_pos := by norm_num

/-- A concrete instance of `SqrtModel` (an upper bound for the exact
square root), usable to evaluate the scoring functions on concrete
inputs. -/
def sqrtTest : SqrtModel where
  sqrt := fun x => max 1 x
  sqrt_nonneg := fun x _ => le_trans zero_le_one (le_max_left 1 x)
  le_sq_sqrt := fun x hx => by
    show x ≤ (max 1 x) ^ 2
    rcases le_total x 1 with h | h
    · have hm : max 1 x = 1 := max_eq_left h
      rw [hm]; norm_num [h]
    · have hm : max 1 x = x := max_eq_right h
      rw [hm, sq]
      nlinarith

/-- Language share dictionaries, as produced by the backend from the
per-language byte counts (`语言的代码量占比`): an association list from
language name to share. -/
abbrev LangShares : Type := List (String × ℚ)

/-- The set of languages mentioned by a share dictionary. -/
def keys (l : LangShares) : Finset String :=
  (l.map Prod.fst).toFinset

/-- Share a dictionary assigns to one language (0 when absent). -/
def shareOf (l : LangShares) (lang : String) : ℚ :=
  match l.find? (fun p => p.1 == lang) with
  | some p => p.2
  | none => 0

/-- All shares of a dictionary are nonnegative. -/
def sharesNonneg (l : LangShares) : Prop := ∀ p ∈ l, 0 ≤ p.2

/-- The dictionary is a (sub-)probability assignment: every share lies
in `[0,1]`. -/
def sharesDistrib (l : LangShares) : Prop := ∀ p ∈ l, 0 ≤ p.2 ∧ p.2 ≤ 1

/-- Modelled from the spec: the dot product of two language-share
vectors over the union of their language lists, as used by the cosine
similarity of the missing backend `recommend` module. -/
def dotShares (a b : LangShares) : ℚ :=
  ∑ lang ∈ keys a ∪ keys b, shareOf a lang * shareOf b lang

/-- Modelled from the spec: cosine similarity
`LS = v₁·v₂ / (‖v₁‖ ‖v₂‖)` of two language-share vectors, with an
empty/zero denominator evaluating to 0 (never raising). -/
def cosineSim (S : SqrtModel) (a b : LangShares) : ℚ :=
  let denom := S.sqrt (dotShares a a) * S.sqrt (dotShares b b)
  if denom = 0 then 0 else dotShares a b / denom

/-- Modelled from the spec: Jaccard similarity `|A∩B| / |A∪B|` of two
finite sets, with an empty union evaluating to 0 (never raising). -/
def jaccard {α : Type} [DecidableEq α] (A B : Finset α) : ℚ :=
  if (A ∪ B).card = 0 then 0
  else ((A ∩ B).card : ℚ) / ((A ∪ B).card : ℚ)

lemma shareOf_eq_zero {l : LangShares} {lang : String}
    (h : lang ∉ keys l) : shareOf l lang = 0 := by
  induction l with
  | nil => rfl
  | cons p rest ih =>
    have hne : ¬ (p.1 == lang) = true := by
      intro hb
      apply h
      have : p.1 = lang := by simpa using hb
      simp [keys, this]
    have hrest : lang ∉ keys rest := by
      intro hmem
      apply h
      simp only [keys, List.map_cons, List.toFinset_cons, Finset.mem_insert]
      right
      simpa [keys] using hmem
    simp only [shareOf, List.find?]
    rw [Bool.not_eq_true] at hne
    rw [hne]
    exact ih hrest

lemma shareOf_nonneg {l : LangShares} (hl : sharesNonneg l) (lang : String) :
    0 ≤ shareOf l lang := by
  unfold shareOf
  cases hfind : l.find? (fun p => p.1 == lang) with
  | none => exact le_refl 0
  | some p => exact hl p (List.mem_of_find?_eq_some hfind)

lemma shareOf_le_one {l : LangShares} (hl : sharesDistrib l) (lang : String) :
    shareOf l lang ≤ 1 := by
  unfold shareOf
  cases hfind : l.find? (fun p => p.1 == lang) with
  | none => exact zero_le_one
  | some p => exact (hl p (List.mem_of_find?_eq_some hfind)).2

lemma dotShares_comm (a b : LangShares) : dotShares a b = dotShares b a := by
  unfold dotShares
  rw [Finset.union_comm]
  exact Finset.sum_congr rfl (fun x _ => mul_comm _ _)

lemma dotShares_self_eq (a b : LangShares) :
    dotShares a a = ∑ lang ∈ keys a ∪ keys b, shareOf a lang ^ 2 := by
  unfold dotShares
  rw [Finset.union_self]
  rw [Finset.sum_subset Finset.subset_union_left]
  · exact Finset.sum_congr rfl (fun x _ => (sq (shareOf a x)).symm)
  · intro x _ hx
    rw [shareOf_eq_zero hx]
    norm_num

lemma dotShares_self_nonneg (a : LangShares) : 0 ≤ dotShares a a := by
  unfold dotShares
  apply Finset.sum_nonneg
  intro i _
  exact mul_self_nonneg _

lemma dotShares_nonneg {a b : LangShares}
    (ha : sharesNonneg a) (hb : sharesNonneg b) : 0 ≤ dotShares a b := by
  apply Finset.sum_nonneg
  intro i _
  exact mul_nonneg (shareOf_nonneg ha i) (shareOf_nonneg hb i)

lemma dotShares_sq_le (a b : LangShares) :
    dotShares a b ^ 2 ≤ dotShares a a * dotShares b b := by
  rw [dotShares_self_eq a b, dotShares_self_eq b a, Finset.union_comm (keys b) (keys a)]
  exact Finset.sum_mul_sq_le_sq_mul_sq _ _ _

lemma cosineSim_comm (S : SqrtModel) (a b : LangShares) :
    cosineSim S a b = cosineSim S b a := by
  unfold cosineSim
  rw [dotShares_comm a b, mul_comm (S.sqrt (dotShares a a)) (S.sqrt (dotShares b b))]

lemma cosineSim_nonneg (S : SqrtModel) {a b : LangShares}
    (ha : sharesNonneg a) (hb : sharesNonneg b) : 0 ≤ cosineSim S a b := by
  unfold cosineSim
  set denom := S.sqrt (dotShares a a) * S.sqrt (dotShares b b) with hd
  by_cases h : denom = 0
  · simp [h]
  · simp only [h, if_false]
    apply div_nonneg (dotShares_nonneg ha hb)
    exact mul_nonneg (S.sqrt_nonneg _ (dotShares_self_nonneg a))
      (S.sqrt_nonneg _ (dotShares_self_nonneg b))

lemma cosineSim_le_one (S : SqrtModel) {a b : LangShares}
    (ha : sharesNonneg a) (hb : sharesNonneg b) : cosineSim S a b ≤ 1 := by
  unfold cosineSim
  set denom := S.sqrt (dotShares a a) * S.sqrt (dotShares b b) with hd
  by_cases h : denom = 0
  · simp [h]
  · simp only [h, if_false]
    have hdnn : 0 ≤ denom :=
      mul_nonneg (S.sqrt_nonneg _ (dotShares_self_nonneg a))
        (S.sqrt_nonneg _ (dotShares_self_nonneg b))
    have hdpos : 0 < denom := lt_of_le_of_ne hdnn (Ne.symm h)
    rw [div_le_one hdpos]
    have h1 : dotShares a b ^ 2 ≤ dotShares a a * dotShares b b := dotShares_sq_le a b
    have h2 : dotShares a a ≤ (S.sqrt (dotShares a a)) ^ 2 :=
      S.le_sq_sqrt _ (dotShares_self_nonneg a)
    have h3 : dotShares b b ≤ (S.sqrt (dotShares b b)) ^ 2 :=
      S.le_sq_sqrt _ (dotShares_self_nonneg b)
    have hsq : dotShares a b ^ 2 ≤ denom ^ 2 := by
      have : dotShares a a * dotShares b b ≤
          (S.sqrt (dotShares a a)) ^ 2 * (S.sqrt (dotShares b b)) ^ 2 := by
        apply mul_le_mul h2 h3 (dotShares_self_nonneg b) (sq_nonneg _)
      calc dotShares a b ^ 2 ≤ dotShares a a * dotShares b b := h1
        _ ≤ (S.sqrt (dotShares a a)) ^ 2 * (S.sqrt (dotShares b b)) ^ 2 := this
        _ = denom ^ 2 := by rw [hd]; ring
    have habnn : 0 ≤ dotShares a b := dotShares_nonneg ha hb
    nlinarith

lemma jaccard_nonneg {α : Type} [DecidableEq α] (A B : Finset α) :
    0 ≤ jaccard A B := by
  unfold jaccard
  by_cases h : (A ∪ B).card = 0
  · simp [h]
  · simp only [h, if_false]
    positivity

lemma jaccard_le_one {α : Type} [DecidableEq α] (A B : Finset α) :
    jaccard A B ≤ 1 := by
  unfold jaccard
  by_cases h : (A ∪ B).card = 0
  · simp [h]
  · simp only [h, if_false]
    have hpos : (0 : ℚ) < (A ∪ B).card := by
      have : 0 < (A ∪ B).card := Nat.pos_of_ne_zero h
      exact_mod_cast this
    rw [div_le_one hpos]
    have hsub : A ∩ B ⊆ A ∪ B :=
      le_trans Finset.inter_subset_left Finset.subset_union_left
    exact_mod_cast Finset.card_le_card hsub

lemma jaccard_comm {α : Type} [DecidableEq α] (A B : Finset α) :
    jaccard A B = jaccard B A := by
  unfold jaccard
  rw [Finset.union_comm, Finset.inter_comm]

/-- Modelled from the spec: metrics of a user entity
(`UserMetrics = openRank?, followers, following, publicRepos,
languageShares, topics`; the spec additionally names a recent-activity
signal used by the activity sub-score, recorded here as
`recentEvents`). -/
structure UserMetrics where
  openRank : Option ℚ
  followers : ℕ
  following : ℕ
  publicRepos : ℕ
  recentEvents : ℕ
  languageShares : LangShares
  topics : Finset String

/-- Modelled from the spec: metrics of a repository entity
(`RepoMetrics = openRank?, stars, forks, watchers, size,
languageShares, topics, lastUpdated, contributors`; `primaryLanguage`
is the repository's main language used by the user–repository language
match, and `active` records whether the repository was updated within
the current/prior activity window). -/
structure RepoMetrics where
  openRank : Option ℚ
  stars : ℕ
  forks : ℕ
  watchers : ℕ
  size : ℕ
  primaryLanguage : String
  languageShares : LangShares
  topics : Finset String
  lastUpdated : ℤ
  contributors : Finset String
  active : Bool

/-- The discrete maturity tier derived from a scale score. -/
inductive Tier where
  | novice
  | intermediate
  | advanced
  | expert
deriving DecidableEq, Repr

/-- Numeric rank of a tier, used to state monotonicity. -/
def tierRank : Tier → ℕ
  | .novice => 0
  | .intermediate => 1
  | .advanced => 2
  | .expert => 3

/-- Modelled from the spec: the tier thresholds of `ScaleResult`
(novice `< 25`, intermediate `[25,30)`, advanced `[30,35)`,
expert `≥ 35`). -/
def tierOf (score : ℚ) : Tier :=
  if score < 25 then .novice
  else if score < 30 then .intermediate
  else if score < 35 then .advanced
  else .expert

/-- Modelled from the spec: user scale score.
`orScore = min(1, openRank/10)` (0 if absent),
`social = min(1, ln(followers+1)/ln 10000)`, repo-quality and activity
sub-scores computed analogously from `publicRepos` and the
recent-activity signal; `score01` is the 0.4/0.3/0.15/0.15 weighted
sum, mapped to `20 + score01·20`. -/
def userScale (L : LogModel) (m : UserMetrics) : ℚ :=
  let orScore := min 1 ((m.openRank.getD 0) / 10)
  let social := min 1 (L.lg m.followers / L.ln10k)
  let repoQuality := min 1 (L.lg m.publicRepos / L.ln100)
  let activity := min 1 (L.lg m.recentEvents / L.ln100)
  let score01 := 0.4 * orScore + 0.3 * social + 0.15 * repoQuality + 0.15 * activity
  20 + score01 * 20

/-- Modelled from the spec: repository recency multiplier, 1.0 when the
repository was updated within the activity window and 0.5 otherwise,
applied to the variable (non-floor) portion of the repository score. -/
def recencyFactor (m : RepoMetrics) : ℚ :=
  if m.active then 1 else 1 / 2

/-- Modelled from the spec: repository scale score.  With openRank
present: `base = 20 + openRank·20` plus star/fork bonuses
`min(1, ln(stars+1)/ln 10000)·0.2·20` and
`min(1, ln(forks+1)/ln 1000)·0.1·20`, capped at 40.  Without openRank:
`score01 = star·0.5 + fork·0.3 + watch·0.2` mapped to
`20 + score01·20`.  The recency multiplier scales the variable
portion. -/
def repoScale (L : LogModel) (m : RepoMetrics) : ℚ :=
  match m.openRank with
  | some orv =>
    let starBonus := min 1 (L.lg m.stars / L.ln10k) * 0.2 * 20
    let forkBonus := min 1 (L.lg m.forks / L.ln1k) * 0.1 * 20
    min 40 (20 + (orv * 20 + starBonus + forkBonus) * recencyFactor m)
  | none =>
    let star := min 1 (L.lg m.stars / L.ln10k)
    let fork := min 1 (L.lg m.forks / L.ln1k)
    let watch := min 1 (L.lg m.watchers / L.ln1k)
    let score01 := star * 0.5 + fork * 0.3 + watch * 0.2
    20 + score01 * 20 * recencyFactor m

/-- Weight profile for the user–user similarity (the source documents
both a 40/40/20 and a 30/30/40 split; the spec makes the profile
configuration). -/
structure UUWeights where
  lang : ℚ
  topic : ℚ
  act : ℚ

/-- A user–user weight profile is valid when the weights are
nonnegative and sum to 1. -/
def UUWeights.valid (w : UUWeights) : Prop :=
  0 ≤ w.lang ∧ 0 ≤ w.topic ∧ 0 ≤ w.act ∧ w.lang + w.topic + w.act = 1

/-- Weight profile for the repository–repository similarity (the
source documents 40/30/20/10-style splits; the spec makes the profile
configuration). -/
structure RRWeights where
  lang : ℚ
  topic : ℚ
  contrib : ℚ
  scale : ℚ

/-- A repository–repository weight profile is valid when the weights
are nonnegative and sum to 1. -/
def RRWeights.valid (w : RRWeights) : Prop :=
  0 ≤ w.lang ∧ 0 ≤ w.topic ∧ 0 ≤ w.contrib ∧ 0 ≤ w.scale ∧
    w.lang + w.topic + w.contrib + w.scale = 1

/-- Modelled from the spec: user–user activity similarity.
Features are log-normalised with bases 10⁴/10³/10² respectively,
`diff = 0.4·|f₁−f₂| + 0.3·|g₁−g₂| + 0.3·|r₁−r₂|`,
`AS = 1 − min(diff, 1)`. -/
def activitySim (L : LogModel) (a b : UserMetrics) : ℚ :=
  let f := fun m : UserMetrics => L.lg m.followers / L.ln10k
  let g := fun m : UserMetrics => L.lg m.following / L.ln1k
  let r := fun m : UserMetrics => L.lg m.publicRepos / L.ln100
  let diff := 0.4 * |f a - f b| + 0.3 * |g a - g b| + 0.3 * |r a - r b|
  1 - min diff 1

/-- Modelled from the spec: user–user similarity, the weighted sum of
language cosine similarity, topic Jaccard similarity and activity
similarity. -/
def userUserSim (L : LogModel) (S : SqrtModel) (w : UUWeights)
    (a b : UserMetrics) : ℚ :=
  w.lang * cosineSim S a.languageShares b.languageShares +
    w.topic * jaccard a.topics b.topics +
    w.act * activitySim L a b

/-- Modelled from the spec: user–repository similarity.
`LM = P(L_main)` (weight 0.4), topic Jaccard (weight 0.4), and the
scale-recency score
`RS = min(1, (0.7·star + 0.3·fork) × (1.2 if active else 0.8))`
(weight 0.2). -/
def userRepoSim (L : LogModel) (u : UserMetrics) (r : RepoMetrics) : ℚ :=
  let lm := shareOf u.languageShares r.primaryLanguage
  let tm := jaccard u.topics r.topics
  let star := L.lg r.stars / L.ln10k
  let fork := L.lg r.forks / L.ln1k
  let factor : ℚ := if r.active then 1.2 else 0.8
  let rs := min 1 ((0.7 * star + 0.3 * fork) * factor)
  0.4 * lm + 0.4 * tm + 0.2 * rs

/-- Modelled from the spec: repository–repository size/recency score,
`RS = 1 − min(0.6·star_diff + 0.3·fork_diff + 0.1·time_diff, 1)` with
log-scaled star/fork deltas and an update-time delta over 365 days. -/
def repoRecencySim (L : LogModel) (a b : RepoMetrics) : ℚ :=
  let starDiff := |L.lg a.stars - L.lg b.stars| / L.ln10k
  let forkDiff := |L.lg a.forks - L.lg b.forks| / L.ln1k
  let timeDiff := |(a.lastUpdated : ℚ) - (b.lastUpdated : ℚ)| / 365
  1 - min (0.6 * starDiff + 0.3 * forkDiff + 0.1 * timeDiff) 1

/-- Modelled from the spec: repository–repository similarity, the
weighted sum of language cosine similarity, topic Jaccard, contributor
Jaccard and the size/recency score. -/
def repoRepoSim (L : LogModel) (S : SqrtModel) (w : RRWeights)
    (a b : RepoMetrics) : ℚ :=
  w.lang * cosineSim S a.languageShares b.languageShares +
    w.topic * jaccard a.topics b.topics +
    w.contrib * jaccard a.contributors b.contributors +
    w.scale * repoRecencySim L a b

/-- Modelled from the spec: the discrete-language repository–repository
variant,
`0.3·(1 if lang₁ = lang₂ else 0) + 0.4·topic Jaccard +
0.3·(1 − |size₁−size₂| / max(size₁+size₂, 1))`. -/
def repoRepoSimDiscrete (a b : RepoMetrics) : ℚ :=
  let langSim : ℚ := if a.primaryLanguage = b.primaryLanguage then 1 else 0
  let topicSim := jaccard a.topics b.topics
  let sizeSim := 1 - |(a.size : ℚ) - (b.size : ℚ)| / max ((a.size : ℚ) + (b.size : ℚ)) 1
  0.3 * langSim + 0.4 * topicSim + 0.3 * sizeSim

/-- Modelled from the spec: target candidate-pool size for user
candidates, `base 100 + (scale−20)·5`, clamped to `[100,200]`. -/
def userPoolSize (scale : ℚ) : ℚ :=
  min 200 (max 100 (100 + (scale - 20) * 5))

/-- Modelled from the spec: target candidate-pool size for repository
candidates, `base 60 + (scale−20)·2`, clamped to `[60,100]`. -/
def repoPoolSize (scale : ℚ) : ℚ :=
  min 100 (max 60 (60 + (scale - 20) * 2))

/-- A scored candidate entering the node stratifier: id, scale score
and similarity to the anchor. -/
structure Cand where
  id : String
  scale : ℚ
  sim : ℚ
deriving DecidableEq, Repr

/-- Node classification of the output graph
(`center/mentor/peer/floating`), as in the `Node` interface of the
Graph component. -/
inductive NodeType where
  | center
  | mentor
  | peer
  | floating
deriving DecidableEq, Repr

/-- Modelled from the spec: the fixed node-classification thresholds of
the missing backend `recommend` module — mentor for scale `≥ 33`, peer
for `25 ≤ scale < 33`, floating for `scale < 25`. -/
def nodeTypeOf (scale : ℚ) : NodeType :=
  if 33 ≤ scale then .mentor
  else if 25 ≤ scale then .peer
  else .floating

/-- A node of the recommendation result, carrying its computed
similarity and node type. -/
structure RecNode where
  id : String
  sim : ℚ
  nodeType : NodeType
deriving DecidableEq, Repr

/-- Candidate to output node: the node type is derived from the
candidate's scale score alone. -/
def toNode (c : Cand) : RecNode :=
  ⟨c.id, c.sim, nodeTypeOf c.scale⟩

/-- Descending-by-similarity comparison used to rank candidates inside
a bucket. -/
def simGE (a b : Cand) : Prop := b.sim ≤ a.sim

instance : DecidableRel simGE := fun a b => inferInstanceAs (Decidable (b.sim ≤ a.sim))

/-- Per-bucket count bounds of the node stratifier. -/
structure BucketBounds where
  mentorMax : ℕ
  peerMax : ℕ
  floatingMax : ℕ
deriving DecidableEq, Repr

/-- Modelled from the spec: one bucket of the node stratifier — filter
the pool to the candidates whose scale falls in the bucket's tier, sort
descending by similarity, and take the bucket's count bound. -/
def selectBucket (t : NodeType) (k : ℕ) (pool : List Cand) : List Cand :=
  ((pool.filter (fun c => nodeTypeOf c.scale = t)).insertionSort simGE).take k

/-- Modelled from the spec: the node stratifier — mentor, peer and
floating buckets selected from the candidate pool. -/
def stratify (bb : BucketBounds) (pool : List Cand) :
    List RecNode × List RecNode × List RecNode :=
  ((selectBucket .mentor bb.mentorMax pool).map toNode,
   (selectBucket .peer bb.peerMax pool).map toNode,
   (selectBucket .floating bb.floatingMax pool).map toNode)

/-- A post-selection shuffle is any function that permutes its input
list (layout variety only). -/
def IsShuffle (sh : List RecNode → List RecNode) : Prop :=
  ∀ l, (sh l).Perm l

/-- Modelled from the spec: the recommendation assembler — the center
node for the anchor followed by the three stratified buckets, each
shuffled after selection. -/
def assemble (sh : List RecNode → List RecNode) (bb : BucketBounds)
    (anchorId : String) (pool : List Cand) : List RecNode :=
  let buckets := stratify bb pool
  ⟨anchorId, 1, .center⟩ :: (sh buckets.1 ++ sh buckets.2.1 ++ sh buckets.2.2)

/-- Result of a Next.js API route handler: either an early JSON
rejection with an HTTP status, or a forward to the backend at the given
URL (the only place an external call is made). -/
inductive RouteResult where
  | reject (status : ℕ) (message : String)
  | forward (url : String)
deriving DecidableEq, Repr

/-- JS truthiness of an optional query parameter: an absent parameter
and an empty string are both falsy. -/
def truthy (o : Option String) : Option String :=
  match o with
  | some s => if s = "" then none else some s
  | none => none

/-- JS `x || d`: the default replaces both an absent parameter and an
empty string. -/
def orDefault (o : Option String) (d : String) : String :=
  match o with
  | some s => if s = "" then d else s
  | none => d

/-- Characters `encodeURIComponent` leaves unescaped
(ECMA-262 unreserved set). -/
def isUnreserved (c : Char) : Bool :=
  c.isAlphanum || c = '-' || c = '_' || c = '.' || c = '!' || c = '~' ||
    c = '*' || c = Char.ofNat 39 || c = '(' || c = ')'

/-- Upper-case hexadecimal digit of a value below 16. -/
def hexDigit (n : ℕ) : Char :=
  if n < 10 then Char.ofNat (48 + n) else Char.ofNat (55 + n)

/-- Percent-encoding of one byte. -/
def pctByte (b : ℕ) : List Char :=
  ['%', hexDigit (b / 16), hexDigit (b % 16)]

/-- UTF-8 bytes of one character. -/
def utf8Bytes (c : Char) : List ℕ :=
  let n := c.toNat
  if n < 128 then [n]
  else if n < 2048 then [192 + n / 64, 128 + n % 64]
  else if n < 65536 then [224 + n / 4096, 128 + (n / 64) % 64, 128 + n % 64]
  else [240 + n / 262144, 128 + (n / 4096) % 64, 128 + (n / 64) % 64, 128 + n % 64]

/-- JS `encodeURIComponent`: unreserved characters pass through, every
other character is replaced by the percent-encoding of its UTF-8
bytes. -/
def encodeURIComponent (s : String) : String :=
  ⟨s.data.foldr
    (fun c acc =>
      (if isUnreserved c then [c] else (utf8Bytes c).foldr (fun b a => pctByte b ++ a) []) ++ acc)
    []⟩

/-- Backend base URL of the recommend route. -/
def recommendBase : String := "http://localhost:8000/api"

/-- The backend URL the recommend route forwards to, with every query
value passed through `encodeURIComponent`. -/
def recommendUrl (type name find count : String) : String :=
  recommendBase ++ "/recommend?type=" ++ encodeURIComponent type ++
    "&name=" ++ encodeURIComponent name ++
    "&find=" ++ encodeURIComponent find ++
    "&count=" ++ encodeURIComponent count

/-- The recommend route handler (`GET` of
`src/app/api/analyze/route.ts`, recommend variant): missing-parameter
check, `type`/`find` value checks, the `repo` slash check, then the
forward with `count` defaulted to `"10"`. -/
def recommendGET (type name find count : Option String) : RouteResult :=
  match truthy type, truthy name, truthy find with
  | some t, some n, some f =>
    if t = "user" ∨ t = "repo" then
      if f = "user" ∨ f = "repo" then
        if t = "repo" ∧ ¬ ('/' ∈ n.data) then
          .reject 400 "仓库名称格式错误，应为: owner/repo"
        else
          .forward (recommendUrl t n f (orDefault count "10"))
      else .reject 400 "find 参数必须是 user 或 repo"
    else .reject 400 "type 参数必须是 user 或 repo"
  | _, _, _ => .reject 400 "缺少必要参数"

/-- Split a character list on `/`. -/
def splitSlash : List Char → List (List Char)
  | [] => [[]]
  | c :: cs =>
    let rest := splitSlash cs
    if c = '/' then [] :: rest
    else
      match rest with
      | [] => [[c]]
      | g :: gs => (c :: g) :: gs

/-- Strict `owner/name` form, following the spec's words: exactly one
slash, with a nonempty owner part and a nonempty name part. -/
def isOwnerRepoForm (s : String) : Bool :=
  match splitSlash s.data with
  | [o, r] => !o.isEmpty && !r.isEmpty
  | _ => false

/-- The error-message response produced by a route handler. -/
structure ErrorResponse where
  status : ℕ
  statusField : String
  message : String
deriving DecidableEq, Repr

/-- The catch branch of the analyze route (`GET` of
`src/app/api/analyze/route.ts`): status 500 with
`error instanceof Error ? error.message : '服务器错误'`; `some m`
models a thrown `Error` whose message is `m`, `none` a non-`Error`
value. -/
def analyzeCatchResponse (err : Option String) : ErrorResponse :=
  { status := 500, statusField := "error", message := err.getD "服务器错误" }

/-- The fixed error-kind-to-title table of the Graph component's
`getErrorMessage`. -/
def errorMessages : List (String × String) :=
  [("RATE_LIMIT_ERROR", "🚫 GitHub API 访问受限"),
   ("USER_NOT_FOUND", "👤 用户不存在或无法访问"),
   ("REPO_NOT_FOUND", "📦 仓库不存在或无法访问"),
   ("NO_USER_REPOS", "📭 该用户没有公开仓库"),
   ("NO_LANGUAGE_PREFERENCE", "🔍 无法确定用户的编程语言偏好"),
   ("USER_RECOMMENDATION_ERROR", "🤝 获取用户推荐失败"),
   ("REPO_RECOMMENDATION_ERROR", "📚 获取仓库推荐失败"),
   ("NO_CONTRIBUTORS", "👥 该仓库暂无贡献者"),
   ("NO_RECOMMENDATIONS", "🔍 未找到相关推荐"),
   ("INTERNAL_ERROR", "⚠️ 服务器内部错误")]

/-- `getErrorMessage` of the Graph component: title looked up in the
fixed table (default 未知错误), description is the passed message. -/
def getErrorMessage (errorType message : String) : String × String :=
  (((errorMessages.find? (fun p => p.1 == errorType)).map Prod.snd).getD "未知错误",
   message)

lemma min_one_nonneg {x : ℚ} (hx : 0 ≤ x) : 0 ≤ min 1 x :=
  le_min zero_le_one hx

lemma min_one_le_one (x : ℚ) : min 1 x ≤ 1 :=
  min_le_left 1 x

lemma wsum3_nonneg {w1 w2 w3 x1 x2 x3 : ℚ}
    (hw1 : 0 ≤ w1) (hw2 : 0 ≤ w2) (hw3 : 0 ≤ w3)
    (h1 : 0 ≤ x1) (h2 : 0 ≤ x2) (h3 : 0 ≤ x3) :
    0 ≤ w1 * x1 + w2 * x2 + w3 * x3 := by
  have := mul_nonneg hw1 h1
  have := mul_nonneg hw2 h2
  have := mul_nonneg hw3 h3
  linarith

lemma wsum3_le_one {w1 w2 w3 x1 x2 x3 : ℚ}
    (hw1 : 0 ≤ w1) (hw2 : 0 ≤ w2) (hw3 : 0 ≤ w3)
    (hsum : w1 + w2 + w3 = 1)
    (h1 : x1 ≤ 1) (h2 : x2 ≤ 1) (h3 : x3 ≤ 1) :
    w1 * x1 + w2 * x2 + w3 * x3 ≤ 1 := by
  have e1 : w1 * x1 ≤ w1 := by nlinarith
  have e2 : w2 * x2 ≤ w2 := by nlinarith
  have e3 : w3 * x3 ≤ w3 := by nlinarith
  linarith

lemma wsum4_nonneg {w1 w2 w3 w4 x1 x2 x3 x4 : ℚ}
    (hw1 : 0 ≤ w1) (hw2 : 0 ≤ w2) (hw3 : 0 ≤ w3) (hw4 : 0 ≤ w4)
    (h1 : 0 ≤ x1) (h2 : 0 ≤ x2) (h3 : 0 ≤ x3) (h4 : 0 ≤ x4) :
    0 ≤ w1 * x1 + w2 * x2 + w3 * x3 + w4 * x4 := by
  have := mul_nonneg hw1 h1
  have := mul_nonneg hw2 h2
  have := mul_nonneg hw3 h3
  have := mul_nonneg hw4 h4
  linarith

lemma wsum4_le_one {w1 w2 w3 w4 x1 x2 x3 x4 : ℚ}
    (hw1 : 0 ≤ w1) (hw2 : 0 ≤ w2) (hw3 : 0 ≤ w3) (hw4 : 0 ≤ w4)
    (hsum : w1 + w2 + w3 + w4 = 1)
    (h1 : x1 ≤ 1) (h2 : x2 ≤ 1) (h3 : x3 ≤ 1) (h4 : x4 ≤ 1) :
    w1 * x1 + w2 * x2 + w3 * x3 + w4 * x4 ≤ 1 := by
  have e1 : w1 * x1 ≤ w1 := by nlinarith
  have e2 : w2 * x2 ≤ w2 := by nlinarith
  have e3 : w3 * x3 ≤ w3 := by nlinarith
  have e4 : w4 * x4 ≤ w4 := by nlinarith
  linarith

/-- The claim that Jaccard is 0 on disjoint sets AND 1 on every
self-comparison fails at the empty set compared with itself: there the
empty-union rule makes the value 0, not 1. -/
theorem jaccard_empty_self_counterexample :
    jaccard (∅ : Finset ℕ) ∅ = 0 ∧ jaccard (∅ : Finset ℕ) ∅ ≠ 1 := by
  constructor
  · simp [jaccard]
  · simp [jaccard]

/-- C6 (amended): the Jaccard similarity used for topic and contributor
comparison is 0 on disjoint sets, 1 on the self-comparison of a
nonempty set, 0 whenever the union is empty (the empty-denominator
rule, which wins at the empty set compared with itself), and always
lies in `[0,1]`. -/
theorem jaccard_spec {α : Type} [DecidableEq α] (A B : Finset α) :
    (Disjoint A B → jaccard A B = 0) ∧
    (A.Nonempty → jaccard A A = 1) ∧
    ((A ∪ B).card = 0 → jaccard A B = 0) ∧
    0 ≤ jaccard A B ∧ jaccard A B ≤ 1 := by
  refine ⟨?_, ?_, ?_, jaccard_nonneg A B, jaccard_le_one A B⟩
  · intro hd
    unfold jaccard
    by_cases h : (A ∪ B).card = 0
    · simp [h]
    · have : A ∩ B = ∅ := Finset.disjoint_iff_inter_eq_empty.mp hd
      simp [h, this]
  · intro hne
    unfold jaccard
    have hu : A ∪ A = A := Finset.union_self A
    have hi : A ∩ A = A := Finset.inter_self A
    have hcard : A.card ≠ 0 := Finset.card_ne_zero.mpr hne
    rw [hu, hi]
    simp only [hcard, if_false]
    have : ((A.card : ℚ)) ≠ 0 := by exact_mod_cast hcard
    exact div_self this
  · intro h
    unfold jaccard
    simp [h]

/-- Witness for `jaccard_spec` at concrete sets. -/
theorem jaccard_spec_witness :
    jaccard ({1} : Finset ℕ) {2} = 0 ∧ jaccard ({1} : Finset ℕ) {1} = 1 ∧
      jaccard (∅ : Finset ℕ) ∅ = 0 :=
  ⟨(jaccard_spec ({1} : Finset ℕ) {2}).1 (by decide),
   (jaccard_spec ({1} : Finset ℕ) {1}).2.1 ⟨1, by decide⟩,
   (jaccard_spec (∅ : Finset ℕ) ∅).2.2.1 (by decide)⟩

/-- C5: for an anchor scale score in `[20,40]`, the user candidate pool
target size equals `100 + (scale−20)·5` and lies in `[100,200]`, the
repository pool target size equals `60 + (scale−20)·2` and lies in
`[60,100]`, and the user range is wider than the repository range. -/
theorem poolSize_spec (s : ℚ) (h20 : 20 ≤ s) (h40 : s ≤ 40) :
    userPoolSize s = 100 + (s - 20) * 5 ∧
    100 ≤ userPoolSize s ∧ userPoolSize s ≤ 200 ∧
    repoPoolSize s = 60 + (s - 20) * 2 ∧
    60 ≤ repoPoolSize s ∧ repoPoolSize s ≤ 100 ∧
    ((100 : ℚ) - 60 < 200 - 100) := by
  have hu1 : (100 : ℚ) ≤ 100 + (s - 20) * 5 := by linarith
  have hu2 : 100 + (s - 20) * 5 ≤ (200 : ℚ) := by linarith
  have hr1 : (60 : ℚ) ≤ 60 + (s - 20) * 2 := by linarith
  have hr2 : 60 + (s - 20) * 2 ≤ (100 : ℚ) := by linarith
  have eu : userPoolSize s = 100 + (s - 20) * 5 := by
    unfold userPoolSize
    rw [max_eq_right hu1, min_eq_right hu2]
  have er : repoPoolSize s = 60 + (s - 20) * 2 := by
    unfold repoPoolSize
    rw [max_eq_right hr1, min_eq_right hr2]
  refine ⟨eu, ?_, ?_, er, ?_, ?_, by norm_num⟩
  · rw [eu]; exact hu1
  · rw [eu]; exact hu2
  · rw [er]; exact hr1
  · rw [er]; exact hr2

/-- Witness for `poolSize_spec` at scale 30. -/
theorem poolSize_spec_witness :
    userPoolSize 30 = 100 + ((30 : ℚ) - 20) * 5 ∧
      100 ≤ userPoolSize 30 ∧ userPoolSize 30 ≤ 200 ∧
      repoPoolSize 30 = 60 + ((30 : ℚ) - 20) * 2 ∧
      60 ≤ repoPoolSize 30 ∧ repoPoolSize 30 ≤ 100 ∧
      ((100 : ℚ) - 60 < 200 - 100) :=
  poolSize_spec 30 (by decide) (by decide)

lemma repoRecencySim_comm (L : LogModel) (a b : RepoMetrics) :
    repoRecencySim L a b = repoRecencySim L b a := by
  unfold repoRecencySim
  rw [abs_sub_comm (L.lg a.stars) (L.lg b.stars),
    abs_sub_comm (L.lg a.forks) (L.lg b.forks),
    abs_sub_comm ((a.lastUpdated : ℚ)) ((b.lastUpdated : ℚ))]

/-- C3: repository–repository similarity is symmetric, both in the
weighted four-factor form and in the discrete-language variant. -/
theorem repoRepoSim_symm (L : LogModel) (S : SqrtModel) (w : RRWeights)
    (a b : RepoMetrics) :
    repoRepoSim L S w a b = repoRepoSim L S w b a ∧
      repoRepoSimDiscrete a b = repoRepoSimDiscrete b a := by
  constructor
  · unfold repoRepoSim
    rw [cosineSim_comm, jaccard_comm a.topics b.topics,
      jaccard_comm a.contributors b.contributors, repoRecencySim_comm]
  · unfold repoRepoSimDiscrete
    have hlang : (if a.primaryLanguage = b.primaryLanguage then (1 : ℚ) else 0) =
        (if b.primaryLanguage = a.primaryLanguage then (1 : ℚ) else 0) := by
      by_cases h : a.primaryLanguage = b.primaryLanguage
      · rw [if_pos h, if_pos h.symm]
      · rw [if_neg h, if_neg (fun hh => h (Eq.symm hh))]
    rw [jaccard_comm a.topics b.topics,
      abs_sub_comm ((a.size : ℚ)) ((b.size : ℚ)),
      add_comm ((a.size : ℚ)) ((b.size : ℚ)), hlang]

lemma userScale_bounds (L : LogModel) (m : UserMetrics)
    (hor : 0 ≤ m.openRank.getD 0) :
    20 ≤ userScale L m ∧ userScale L m ≤ 40 := by
  unfold userScale
  have hor01 : 0 ≤ min 1 ((m.openRank.getD 0) / 10) ∧
      min 1 ((m.openRank.getD 0) / 10) ≤ 1 :=
    ⟨min_one_nonneg (by positivity), min_one_le_one _⟩
  have hs01 : 0 ≤ min 1 (L.lg m.followers / L.ln10k) ∧
      min 1 (L.lg m.followers / L.ln10k) ≤ 1 :=
    ⟨min_one_nonneg (div_nonneg (L.lg_nonneg _) L.ln10k_pos.le), min_one_le_one _⟩
  have hr01 : 0 ≤ min 1 (L.lg m.publicRepos / L.ln100) ∧
      min 1 (L.lg m.publicRepos / L.ln100) ≤ 1 :=
    ⟨min_one_nonneg (div_nonneg (L.lg_nonneg _) L.ln100_pos.le), min_one_le_one _⟩
  have ha01 : 0 ≤ min 1 (L.lg m.recentEvents / L.ln100) ∧
      min 1 (L.lg m.recentEvents / L.ln100) ≤ 1 :=
    ⟨min_one_nonneg (div_nonneg (L.lg_nonneg _) L.ln100_pos.le), min_one_le_one _⟩
  constructor <;> [nlinarith [hor01.1, hs01.1, hr01.1, ha01.1];
    nlinarith [hor01.2, hs01.2, hr01.2, ha01.2, hor01.1, hs01.1, hr01.1, ha01.1]]

lemma recencyFactor_bounds (m : RepoMetrics) :
    0 < recencyFactor m ∧ recencyFactor m ≤ 1 := by
  unfold recencyFactor
  by_cases h : m.active
  · simp [h]
  · norm_num [h]

lemma repoScale_bounds (L : LogModel) (m : RepoMetrics)
    (hor : 0 ≤ m.openRank.getD 0) :
    20 ≤ repoScale L m ∧ repoScale L m ≤ 40 := by
  obtain ⟨hrf0, hrf1⟩ := recencyFactor_bounds m
  unfold repoScale
  cases horv : m.openRank with
  | some orv =>
    have horv0 : 0 ≤ orv := by
      rw [horv] at hor
      simpa using hor
    have hsb : 0 ≤ min 1 (L.lg m.stars / L.ln10k) * 0.2 * 20 := by
      have := min_one_nonneg (div_nonneg (L.lg_nonneg m.stars) L.ln10k_pos.le)
      positivity
    have hfb : 0 ≤ min 1 (L.lg m.forks / L.ln1k) * 0.1 * 20 := by
      have := min_one_nonneg (div_nonneg (L.lg_nonneg m.forks) L.ln1k_pos.le)
      positivity
    have hvar : 0 ≤ (orv * 20 + min 1 (L.lg m.stars / L.ln10k) * 0.2 * 20 +
        min 1 (L.lg m.forks / L.ln1k) * 0.1 * 20) * recencyFactor m := by
      apply mul_nonneg _ hrf0.le
      nlinarith
    constructor
    · exact le_min (by norm_num) (by linarith)
    · exact min_le_left _ _
  | none =>
    have hst : 0 ≤ min 1 (L.lg m.stars / L.ln10k) ∧ min 1 (L.lg m.stars / L.ln10k) ≤ 1 :=
      ⟨min_one_nonneg (div_nonneg (L.lg_nonneg _) L.ln10k_pos.le), min_one_le_one _⟩
    have hfk : 0 ≤ min 1 (L.lg m.forks / L.ln1k) ∧ min 1 (L.lg m.forks / L.ln1k) ≤ 1 :=
      ⟨min_one_nonneg (div_nonneg (L.lg_nonneg _) L.ln1k_pos.le), min_one_le_one _⟩
    have hwt : 0 ≤ min 1 (L.lg m.watchers / L.ln1k) ∧ min 1 (L.lg m.watchers / L.ln1k) ≤ 1 :=
      ⟨min_one_nonneg (div_nonneg (L.lg_nonneg _) L.ln1k_pos.le), min_one_le_one _⟩
    constructor
    · nlinarith [hst.1, hfk.1, hwt.1, hrf0.le]
    · nlinarith [hst.1, hfk.1, hwt.1, hst.2, hfk.2, hwt.2, hrf0.le, hrf1]

lemma tierOf_monotone {s t : ℚ} (hst : s ≤ t) :
    tierRank (tierOf s) ≤ tierRank (tierOf t) := by
  unfold tierOf
  split_ifs <;> simp [tierRank] <;> linarith

lemma tierOf_thresholds (s : ℚ) :
    (tierOf s = .novice ↔ s < 25) ∧
    (tierOf s = .intermediate ↔ 25 ≤ s ∧ s < 30) ∧
    (tierOf s = .advanced ↔ 30 ≤ s ∧ s < 35) ∧
    (tierOf s = .expert ↔ 35 ≤ s) := by
  unfold tierOf
  split_ifs with h1 h2 h3
  · refine ⟨iff_of_true rfl h1, iff_of_false (by decide) ?_,
      iff_of_false (by decide) ?_, iff_of_false (by decide) ?_⟩
    · rintro ⟨ha, -⟩; linarith
    · rintro ⟨ha, -⟩; linarith
    · intro ha; linarith
  · refine ⟨iff_of_false (by decide) ?_, iff_of_true rfl ⟨not_lt.mp h1, h2⟩,
      iff_of_false (by decide) ?_, iff_of_false (by decide) ?_⟩
    · intro ha; exact h1 ha
    · rintro ⟨ha, -⟩; linarith
    · intro ha; linarith
  · refine ⟨iff_of_false (by decide) ?_, iff_of_false (by decide) ?_,
      iff_of_true rfl ⟨not_lt.mp h2, h3⟩, iff_of_false (by decide) ?_⟩
    · intro ha; exact h1 ha
    · rintro ⟨-, hb⟩; exact h2 hb
    · intro ha; linarith
  · refine ⟨iff_of_false (by decide) ?_, iff_of_false (by decide) ?_,
      iff_of_false (by decide) ?_, iff_of_true rfl (not_lt.mp h3)⟩
    · intro ha; exact h1 ha
    · rintro ⟨-, hb⟩; exact h2 hb
    · rintro ⟨-, hb⟩; exact h3 hb

/-- C2: ScaleScorer always lands in `[20,40]` — for users and for
repositories with or without openRank, absent fields defaulting to
zero — and the tier is a monotonic function of the score with the
non-overlapping thresholds novice `<25`, intermediate `[25,30)`,
advanced `[30,35)`, expert `≥35`. -/
theorem scaleScore_spec (L : LogModel) (mu : UserMetrics) (mr : RepoMetrics)
    (horu : 0 ≤ mu.openRank.getD 0) (horr : 0 ≤ mr.openRank.getD 0) :
    (20 ≤ userScale L mu ∧ userScale L mu ≤ 40) ∧
    (20 ≤ repoScale L mr ∧ repoScale L mr ≤ 40) ∧
    (∀ s t : ℚ, s ≤ t → tierRank (tierOf s) ≤ tierRank (tierOf t)) ∧
    (∀ s : ℚ,
      (tierOf s = .novice ↔ s < 25) ∧
      (tierOf s = .intermediate ↔ 25 ≤ s ∧ s < 30) ∧
      (tierOf s = .advanced ↔ 30 ≤ s ∧ s < 35) ∧
      (tierOf s = .expert ↔ 35 ≤ s)) :=
  ⟨userScale_bounds L mu horu, repoScale_bounds L mr horr,
   fun _ _ hst => tierOf_monotone hst, tierOf_thresholds⟩

/-- Witness for `scaleScore_spec` on concrete metrics (user without
openRank, repository with openRank). -/
theorem scaleScore_spec_witness :
    (20 ≤ userScale logTest ⟨none, 100, 10, 20, 3, [], ∅⟩ ∧
      userScale logTest ⟨none, 100, 10, 20, 3, [], ∅⟩ ≤ 40) ∧
    (20 ≤ repoScale logTest ⟨some 1, 500, 40, 9, 7, "py", [], ∅, 0, ∅, true⟩ ∧
      repoScale logTest ⟨some 1, 500, 40, 9, 7, "py", [], ∅, 0, ∅, true⟩ ≤ 40) ∧
    (∀ s t : ℚ, s ≤ t → tierRank (tierOf s) ≤ tierRank (tierOf t)) ∧
    (∀ s : ℚ,
      (tierOf s = .novice ↔ s < 25) ∧
      (tierOf s = .intermediate ↔ 25 ≤ s ∧ s < 30) ∧
      (tierOf s = .advanced ↔ 30 ≤ s ∧ s < 35) ∧
      (tierOf s = .expert ↔ 35 ≤ s)) :=
  scaleScore_spec logTest ⟨none, 100, 10, 20, 3, [], ∅⟩
    ⟨some 1, 500, 40, 9, 7, "py", [], ∅, 0, ∅, true⟩
    (by simp) (by simp)

lemma activitySim_bounds (L : LogModel) (a b : UserMetrics) :
    0 ≤ activitySim L a b ∧ activitySim L a b ≤ 1 := by
  unfold activitySim
  dsimp only
  have hf : 0 ≤ |L.lg a.followers / L.ln10k - L.lg b.followers / L.ln10k| := abs_nonneg _
  have hg : 0 ≤ |L.lg a.following / L.ln1k - L.lg b.following / L.ln1k| := abs_nonneg _
  have hr : 0 ≤ |L.lg a.publicRepos / L.ln100 - L.lg b.publicRepos / L.ln100| := abs_nonneg _
  set diff := 0.4 * |L.lg a.followers / L.ln10k - L.lg b.followers / L.ln10k| +
    0.3 * |L.lg a.following / L.ln1k - L.lg b.following / L.ln1k| +
    0.3 * |L.lg a.publicRepos / L.ln100 - L.lg b.publicRepos / L.ln100| with hdiff
  have hd0 : 0 ≤ diff := by rw [hdiff]; positivity
  have hm0 : 0 ≤ min diff 1 := le_min hd0 zero_le_one
  have hm1 : min diff 1 ≤ 1 := min_le_right diff 1
  constructor <;> linarith

lemma userUserSim_bounds (L : LogModel) (S : SqrtModel) (w : UUWeights)
    (a b : UserMetrics) (hw : w.valid)
    (ha : sharesNonneg a.languageShares) (hb : sharesNonneg b.languageShares) :
    0 ≤ userUserSim L S w a b ∧ userUserSim L S w a b ≤ 1 := by
  obtain ⟨hw1, hw2, hw3, hsum⟩ := hw
  unfold userUserSim
  have hls := And.intro (cosineSim_nonneg S ha hb) (cosineSim_le_one S ha hb)
  have hts := And.intro (jaccard_nonneg a.topics b.topics) (jaccard_le_one a.topics b.topics)
  have has := activitySim_bounds L a b
  exact ⟨wsum3_nonneg hw1 hw2 hw3 hls.1 hts.1 has.1,
    wsum3_le_one hw1 hw2 hw3 hsum hls.2 hts.2 has.2⟩

lemma userRepoSim_bounds (L : LogModel) (u : UserMetrics) (r : RepoMetrics)
    (hu : sharesDistrib u.languageShares) :
    0 ≤ userRepoSim L u r ∧ userRepoSim L u r ≤ 1 := by
  unfold userRepoSim
  have hun : sharesNonneg u.languageShares := fun p hp => (hu p hp).1
  have hlm : 0 ≤ shareOf u.languageShares r.primaryLanguage ∧
      shareOf u.languageShares r.primaryLanguage ≤ 1 :=
    ⟨shareOf_nonneg hun _, shareOf_le_one hu _⟩
  have htm := And.intro (jaccard_nonneg u.topics r.topics) (jaccard_le_one u.topics r.topics)
  have hstar : 0 ≤ L.lg r.stars / L.ln10k := div_nonneg (L.lg_nonneg _) L.ln10k_pos.le
  have hfork : 0 ≤ L.lg r.forks / L.ln1k := div_nonneg (L.lg_nonneg _) L.ln1k_pos.le
  have hfac : 0 ≤ (if r.active then (1.2 : ℚ) else 0.8) := by
    by_cases h : r.active
    · rw [if_pos h]; norm_num
    · rw [if_neg h]; norm_num
  have hrs0 : 0 ≤ min 1 ((0.7 * (L.lg r.stars / L.ln10k) + 0.3 * (L.lg r.forks / L.ln1k)) *
      (if r.active then (1.2 : ℚ) else 0.8)) := by
    apply le_min zero_le_one
    apply mul_nonneg _ hfac
    linarith
  have hrs1 : min 1 ((0.7 * (L.lg r.stars / L.ln10k) + 0.3 * (L.lg r.forks / L.ln1k)) *
      (if r.active then (1.2 : ℚ) else 0.8)) ≤ 1 := min_le_left _ _
  constructor
  · have h04 : (0 : ℚ) ≤ 0.4 := by norm_num
    have h02 : (0 : ℚ) ≤ 0.2 := by norm_num
    exact wsum3_nonneg h04 h04 h02 hlm.1 htm.1 hrs0
  · have h04 : (0 : ℚ) ≤ 0.4 := by norm_num
    have h02 : (0 : ℚ) ≤ 0.2 := by norm_num
    have hsum : (0.4 : ℚ) + 0.4 + 0.2 = 1 := by norm_num
    exact wsum3_le_one h04 h04 h02 hsum hlm.2 htm.2 hrs1

lemma repoRecencySim_bounds (L : LogModel) (a b : RepoMetrics) :
    0 ≤ repoRecencySim L a b ∧ repoRecencySim L a b ≤ 1 := by
  unfold repoRecencySim
  dsimp only
  have h1 : 0 ≤ |L.lg a.stars - L.lg b.stars| / L.ln10k :=
    div_nonneg (abs_nonneg _) L.ln10k_pos.le
  have h2 : 0 ≤ |L.lg a.forks - L.lg b.forks| / L.ln1k :=
    div_nonneg (abs_nonneg _) L.ln1k_pos.le
  have h3 : 0 ≤ |(a.lastUpdated : ℚ) - (b.lastUpdated : ℚ)| / 365 := by positivity
  set diff := 0.6 * (|L.lg a.stars - L.lg b.stars| / L.ln10k) +
    0.3 * (|L.lg a.forks - L.lg b.forks| / L.ln1k) +
    0.1 * (|(a.lastUpdated : ℚ) - (b.lastUpdated : ℚ)| / 365) with hdiff
  have hd0 : 0 ≤ diff := by rw [hdiff]; positivity
  have hm0 : 0 ≤ min diff 1 := le_min hd0 zero_le_one
  have hm1 : min diff 1 ≤ 1 := min_le_right diff 1
  constructor <;> linarith

lemma repoRepoSim_bounds (L : LogModel) (S : SqrtModel) (w : RRWeights)
    (a b : RepoMetrics) (hw : w.valid)
    (ha : sharesNonneg a.languageShares) (hb : sharesNonneg b.languageShares) :
    0 ≤ repoRepoSim L S w a b ∧ repoRepoSim L S w a b ≤ 1 := by
  obtain ⟨hw1, hw2, hw3, hw4, hsum⟩ := hw
  unfold repoRepoSim
  have hls := And.intro (cosineSim_nonneg S ha hb) (cosineSim_le_one S ha hb)
  have hts := And.intro (jaccard_nonneg a.topics b.topics) (jaccard_le_one a.topics b.topics)
  have hcs := And.intro (jaccard_nonneg a.contributors b.contributors)
    (jaccard_le_one a.contributors b.contributors)
  have hrs := repoRecencySim_bounds L a b
  exact ⟨wsum4_nonneg hw1 hw2 hw3 hw4 hls.1 hts.1 hcs.1 hrs.1,
    wsum4_le_one hw1 hw2 hw3 hw4 hsum hls.2 hts.2 hcs.2 hrs.2⟩

/-- C1: for every kind pairing — user–user, user–repository,
repository–repository — the similarity score lies in `[0,1]`, for any
valid weight profile and any metrics with well-formed language
shares. -/
theorem similarity_in_unit_interval (L : LogModel) (S : SqrtModel)
    (wu : UUWeights) (wr : RRWeights)
    (u1 u2 u : UserMetrics) (r1 r2 r : RepoMetrics)
    (hwu : wu.valid) (hwr : wr.valid)
    (hu1 : sharesNonneg u1.languageShares) (hu2 : sharesNonneg u2.languageShares)
    (hu : sharesDistrib u.languageShares)
    (hr1 : sharesNonneg r1.languageShares) (hr2 : sharesNonneg r2.languageShares) :
    (0 ≤ userUserSim L S wu u1 u2 ∧ userUserSim L S wu u1 u2 ≤ 1) ∧
    (0 ≤ userRepoSim L u r ∧ userRepoSim L u r ≤ 1) ∧
    (0 ≤ repoRepoSim L S wr r1 r2 ∧ repoRepoSim L S wr r1 r2 ≤ 1) :=
  ⟨userUserSim_bounds L S wu u1 u2 hwu hu1 hu2,
   userRepoSim_bounds L u r hu,
   repoRepoSim_bounds L S wr r1 r2 hwr hr1 hr2⟩

/-- Witness for `similarity_in_unit_interval` on concrete entities and
a concrete weight profile. -/
theorem similarity_in_unit_interval_witness :
    (0 ≤ userUserSim logTest sqrtTest ⟨1, 0, 0⟩
        ⟨none, 100, 10, 20, 3, [("py", 1)], ∅⟩ ⟨none, 7, 2, 4, 1, [], ∅⟩ ∧
      userUserSim logTest sqrtTest ⟨1, 0, 0⟩
        ⟨none, 100, 10, 20, 3, [("py", 1)], ∅⟩ ⟨none, 7, 2, 4, 1, [], ∅⟩ ≤ 1) ∧
    (0 ≤ userRepoSim logTest ⟨none, 100, 10, 20, 3, [("py", 1)], ∅⟩
        ⟨some 1, 500, 40, 9, 7, "py", [], ∅, 0, ∅, true⟩ ∧
      userRepoSim logTest ⟨none, 100, 10, 20, 3, [("py", 1)], ∅⟩
        ⟨some 1, 500, 40, 9, 7, "py", [], ∅, 0, ∅, true⟩ ≤ 1) ∧
    (0 ≤ repoRepoSim logTest sqrtTest ⟨1, 0, 0, 0⟩
        ⟨some 1, 500, 40, 9, 7, "py", [], ∅, 0, ∅, true⟩
        ⟨none, 3, 1, 1, 2, "js", [("js", 1)], ∅, 5, ∅, false⟩ ∧
      repoRepoSim logTest sqrtTest ⟨1, 0, 0, 0⟩
        ⟨some 1, 500, 40, 9, 7, "py", [], ∅, 0, ∅, true⟩
        ⟨none, 3, 1, 1, 2, "js", [("js", 1)], ∅, 5, ∅, false⟩ ≤ 1) :=
  similarity_in_unit_interval logTest sqrtTest ⟨1, 0, 0⟩ ⟨1, 0, 0, 0⟩
    ⟨none, 100, 10, 20, 3, [("py", 1)], ∅⟩ ⟨none, 7, 2, 4, 1, [], ∅⟩
    ⟨none, 100, 10, 20, 3, [("py", 1)], ∅⟩
    ⟨some 1, 500, 40, 9, 7, "py", [], ∅, 0, ∅, true⟩
    ⟨none, 3, 1, 1, 2, "js", [("js", 1)], ∅, 5, ∅, false⟩
    ⟨some 1, 500, 40, 9, 7, "py", [], ∅, 0, ∅, true⟩
    (by simp [UUWeights.valid]) (by simp [RRWeights.valid])
    (by simp [sharesNonneg]) (by simp [sharesNonneg])
    (by simp [sharesDistrib])
    (by simp [sharesNonneg]) (by simp [sharesNonneg])

lemma nodeTypeOf_ne_center (s : ℚ) : nodeTypeOf s ≠ .center := by
  unfold nodeTypeOf
  split_ifs <;> simp

lemma nodeTypeOf_thresholds (s : ℚ) :
    (nodeTypeOf s = .mentor ↔ 33 ≤ s) ∧
    (nodeTypeOf s = .peer ↔ 25 ≤ s ∧ s < 33) ∧
    (nodeTypeOf s = .floating ↔ s < 25) := by
  unfold nodeTypeOf
  split_ifs with h1 h2
  · refine ⟨iff_of_true rfl h1, iff_of_false (by decide) ?_, iff_of_false (by decide) ?_⟩
    · rintro ⟨-, hb⟩; linarith
    · intro ha; linarith
  · refine ⟨iff_of_false (by decide) ?_, iff_of_true rfl ⟨h2, not_le.mp h1⟩,
      iff_of_false (by decide) ?_⟩
    · intro ha; exact h1 ha
    · intro ha; linarith
  · refine ⟨iff_of_false (by decide) ?_, iff_of_false (by decide) ?_,
      iff_of_true rfl (not_le.mp h2)⟩
    · intro ha; exact h1 ha
    · rintro ⟨ha, -⟩; exact h2 ha

lemma selectBucket_mem {t : NodeType} {k : ℕ} {pool : List Cand} {c : Cand}
    (h : c ∈ selectBucket t k pool) : c ∈ pool ∧ nodeTypeOf c.scale = t := by
  unfold selectBucket at h
  have h1 : c ∈ (pool.filter (fun c => nodeTypeOf c.scale = t)).insertionSort simGE :=
    List.take_subset _ _ h
  have h2 : c ∈ pool.filter (fun c => nodeTypeOf c.scale = t) :=
    (List.perm_insertionSort simGE _).mem_iff.mp h1
  have h3 := List.mem_filter.mp h2
  exact ⟨h3.1, of_decide_eq_true h3.2⟩

lemma mem_shuffled_bucket {sh : List RecNode → List RecNode} (hsh : IsShuffle sh)
    {t : NodeType} {k : ℕ} {pool : List Cand} {n : RecNode}
    (h : n ∈ sh ((selectBucket t k pool).map toNode)) : ∃ c ∈ pool, n = toNode c := by
  have h1 := (hsh _).mem_iff.mp h
  obtain ⟨c, hc, rfl⟩ := List.mem_map.mp h1
  exact ⟨c, (selectBucket_mem hc).1, rfl⟩

lemma assemble_tail_mem {sh : List RecNode → List RecNode} (hsh : IsShuffle sh)
    {bb : BucketBounds} {anchorId : String} {pool : List Cand} {n : RecNode}
    (h : n ∈ assemble sh bb anchorId pool) :
    n = ⟨anchorId, 1, .center⟩ ∨ ∃ c ∈ pool, n = toNode c := by
  unfold assemble stratify at h
  rcases List.mem_cons.mp h with hc | ht
  · exact Or.inl hc
  · right
    rcases List.mem_append.mp ht with hmp | hf
    · rcases List.mem_append.mp hmp with hm | hp
      · exact mem_shuffled_bucket hsh hm
      · exact mem_shuffled_bucket hsh hp
    · exact mem_shuffled_bucket hsh hf

/-- C4: in every assembled recommendation result, exactly one node has
nodeType center (the anchor node itself), and every other node's
nodeType is determined from its scale score by the fixed thresholds —
mentor for `scale ≥ 33`, peer for `25 ≤ scale < 33`, floating for
`scale < 25`. -/
theorem center_unique_and_node_classification
    (sh : List RecNode → List RecNode) (bb : BucketBounds)
    (anchorId : String) (pool : List Cand) (hsh : IsShuffle sh) :
    ((assemble sh bb anchorId pool).countP
      (fun n => n.nodeType == NodeType.center) = 1) ∧
    ((assemble sh bb anchorId pool).head? = some ⟨anchorId, 1, .center⟩) ∧
    (∀ n ∈ assemble sh bb anchorId pool, n.nodeType ≠ .center →
      ∃ c ∈ pool, n.id = c.id ∧ n.sim = c.sim ∧ n.nodeType = nodeTypeOf c.scale) ∧
    (∀ s : ℚ,
      (nodeTypeOf s = .mentor ↔ 33 ≤ s) ∧
      (nodeTypeOf s = .peer ↔ 25 ≤ s ∧ s < 33) ∧
      (nodeTypeOf s = .floating ↔ s < 25) ∧ nodeTypeOf s ≠ .center) := by
  refine ⟨?_, ?_, ?_, fun s => ⟨(nodeTypeOf_thresholds s).1, (nodeTypeOf_thresholds s).2.1,
    (nodeTypeOf_thresholds s).2.2, nodeTypeOf_ne_center s⟩⟩
  · show ((⟨anchorId, 1, .center⟩ : RecNode) ::
      (sh ((selectBucket .mentor bb.mentorMax pool).map toNode) ++
        sh ((selectBucket .peer bb.peerMax pool).map toNode) ++
        sh ((selectBucket .floating bb.floatingMax pool).map toNode))).countP
          (fun n => n.nodeType == NodeType.center) = 1
    rw [List.countP_cons]
    have hzero : ((sh ((selectBucket .mentor bb.mentorMax pool).map toNode) ++
        sh ((selectBucket .peer bb.peerMax pool).map toNode) ++
        sh ((selectBucket .floating bb.floatingMax pool).map toNode))).countP
          (fun n => n.nodeType == NodeType.center) = 0 := by
      rw [List.countP_eq_zero]
      intro n hn
      have hmem : ∃ c ∈ pool, n = toNode c := by
        rcases List.mem_append.mp hn with hmp | hf
        · rcases List.mem_append.mp hmp with hm | hp
          · exact mem_shuffled_bucket hsh hm
          · exact mem_shuffled_bucket hsh hp
        · exact mem_shuffled_bucket hsh hf
      obtain ⟨c, -, rfl⟩ := hmem
      simpa using nodeTypeOf_ne_center c.scale
    rw [hzero]
    simp
  · rfl
  · intro n hn hne
    rcases assemble_tail_mem hsh hn with hc | ⟨c, hcp, rfl⟩
    · exact absurd (by rw [hc]) hne
    · exact ⟨c, hcp, rfl, rfl, rfl⟩

/-- Witness for `center_unique_and_node_classification` with the
identity shuffle on a concrete pool. -/
theorem center_unique_witness :
    ((assemble id ⟨10, 15, 20⟩ "me" [⟨"a", 34, 1⟩]).countP
      (fun n => n.nodeType == NodeType.center) = 1) ∧
    ((assemble id ⟨10, 15, 20⟩ "me" [⟨"a", 34, 1⟩]).head? = some ⟨"me", 1, .center⟩) ∧
    (∀ n ∈ assemble id ⟨10, 15, 20⟩ "me" [⟨"a", 34, 1⟩], n.nodeType ≠ .center →
      ∃ c ∈ [(⟨"a", 34, 1⟩ : Cand)], n.id = c.id ∧ n.sim = c.sim ∧
        n.nodeType = nodeTypeOf c.scale) ∧
    (∀ s : ℚ,
      (nodeTypeOf s = .mentor ↔ 33 ≤ s) ∧
      (nodeTypeOf s = .peer ↔ 25 ≤ s ∧ s < 33) ∧
      (nodeTypeOf s = .floating ↔ s < 25) ∧ nodeTypeOf s ≠ .center) :=
  center_unique_and_node_classification id ⟨10, 15, 20⟩ "me" [⟨"a", 34, 1⟩]
    (fun l => List.Perm.refl l)

/-- C7: two runs of the assembler that differ only in their
post-selection shuffles produce permutations of one another — the same
mentor membership, the same peer membership, and the same node set with
identical per-node similarity and nodeType; only ordering inside a
bucket can change. -/
theorem shuffle_invariance
    (sh1 sh2 : List RecNode → List RecNode) (bb : BucketBounds)
    (anchorId : String) (pool : List Cand)
    (h1 : IsShuffle sh1) (h2 : IsShuffle sh2) :
    (assemble sh1 bb anchorId pool).Perm (assemble sh2 bb anchorId pool) ∧
    ((assemble sh1 bb anchorId pool).filter
        (fun n => n.nodeType == NodeType.mentor)).Perm
      ((assemble sh2 bb anchorId pool).filter
        (fun n => n.nodeType == NodeType.mentor)) ∧
    ((assemble sh1 bb anchorId pool).filter
        (fun n => n.nodeType == NodeType.peer)).Perm
      ((assemble sh2 bb anchorId pool).filter
        (fun n => n.nodeType == NodeType.peer)) ∧
    (∀ n, n ∈ assemble sh1 bb anchorId pool ↔ n ∈ assemble sh2 bb anchorId pool) := by
  have hmain : (assemble sh1 bb anchorId pool).Perm (assemble sh2 bb anchorId pool) := by
    unfold assemble
    refine List.Perm.cons _ (List.Perm.append (List.Perm.append ?_ ?_) ?_) <;>
      exact (h1 _).trans (h2 _).symm
  exact ⟨hmain, hmain.filter _, hmain.filter _, fun n => hmain.mem_iff⟩

/-- Witness for `shuffle_invariance`: identity shuffle against the
reversing shuffle on a concrete pool. -/
theorem shuffle_invariance_witness :
    (assemble id ⟨10, 15, 20⟩ "me" [⟨"a", 34, 1⟩, ⟨"b", 30, 1⟩]).Perm
      (assemble List.reverse ⟨10, 15, 20⟩ "me" [⟨"a", 34, 1⟩, ⟨"b", 30, 1⟩]) ∧
    ((assemble id ⟨10, 15, 20⟩ "me" [⟨"a", 34, 1⟩, ⟨"b", 30, 1⟩]).filter
        (fun n => n.nodeType == NodeType.mentor)).Perm
      ((assemble List.reverse ⟨10, 15, 20⟩ "me" [⟨"a", 34, 1⟩, ⟨"b", 30, 1⟩]).filter
        (fun n => n.nodeType == NodeType.mentor)) ∧
    ((assemble id ⟨10, 15, 20⟩ "me" [⟨"a", 34, 1⟩, ⟨"b", 30, 1⟩]).filter
        (fun n => n.nodeType == NodeType.peer)).Perm
      ((assemble List.reverse ⟨10, 15, 20⟩ "me" [⟨"a", 34, 1⟩, ⟨"b", 30, 1⟩]).filter
        (fun n => n.nodeType == NodeType.peer)) ∧
    (∀ n, n ∈ assemble id ⟨10, 15, 20⟩ "me" [⟨"a", 34, 1⟩, ⟨"b", 30, 1⟩] ↔
      n ∈ assemble List.reverse ⟨10, 15, 20⟩ "me" [⟨"a", 34, 1⟩, ⟨"b", 30, 1⟩]) :=
  shuffle_invariance id List.reverse ⟨10, 15, 20⟩ "me" [⟨"a", 34, 1⟩, ⟨"b", 30, 1⟩]
    (fun l => List.Perm.refl l) (fun l => l.reverse_perm)

lemma recommendGET_reduce (t n f : String) (c : Option String)
    (ht : t ≠ "") (hn : n ≠ "") (hf : f ≠ "") :
    recommendGET (some t) (some n) (some f) c =
      (if t = "user" ∨ t = "repo" then
        if f = "user" ∨ f = "repo" then
          if t = "repo" ∧ ¬ ('/' ∈ n.data) then
            RouteResult.reject 400 "仓库名称格式错误，应为: owner/repo"
          else RouteResult.forward (recommendUrl t n f (orDefault c "10"))
        else RouteResult.reject 400 "find 参数必须是 user 或 repo"
      else RouteResult.reject 400 "type 参数必须是 user 或 repo") := by
  simp [recommendGET, truthy, ht, hn, hf]

/-- C8 (amended): requests with a `type` or `find` value outside
user/repo are rejected with HTTP 400 before the backend forward, and a
repo-anchored request is rejected with 400 exactly when its name
contains no slash character; every rejection of the route uses status
400, and in all remaining cases the request is forwarded (so repo names
containing a slash — such as names that are not in strict `owner/name`
form — are forwarded). -/
theorem recommend_validation (t n f : String) (c : Option String)
    (ht : t ≠ "") (hn : n ≠ "") (hf : f ≠ "") :
    ((∃ m, recommendGET (some t) (some n) (some f) c = .reject 400 m) ↔
      (¬(t = "user" ∨ t = "repo") ∨ ¬(f = "user" ∨ f = "repo") ∨
        (t = "repo" ∧ ¬ ('/' ∈ n.data)))) ∧
    (∀ s m, recommendGET (some t) (some n) (some f) c = .reject s m → s = 400) ∧
    ((t = "user" ∨ t = "repo") → (f = "user" ∨ f = "repo") →
      (t = "repo" → '/' ∈ n.data) →
      recommendGET (some t) (some n) (some f) c =
        .forward (recommendUrl t n f (orDefault c "10"))) := by
  rw [recommendGET_reduce t n f c ht hn hf]
  split_ifs with hT hF hS
  · refine ⟨iff_of_true ⟨_, rfl⟩ (Or.inr (Or.inr hS)), ?_, ?_⟩
    · intro s m hsm
      injection hsm with h1 h2
      exact h1.symm
    · intro hTu hFu hslash
      exact absurd (hslash hS.1) hS.2
  · refine ⟨?_, ?_, fun _ _ _ => rfl⟩
    · apply iff_of_false
      · rintro ⟨m, hm⟩
        exact absurd hm (by simp)
      · rintro (h | h | h)
        · exact h hT
        · exact h hF
        · exact hS h
    · intro s m hsm
      exact absurd hsm (by simp)
  · refine ⟨iff_of_true ⟨_, rfl⟩ (Or.inr (Or.inl hF)), ?_, ?_⟩
    · intro s m hsm
      injection hsm with h1 h2
      exact h1.symm
    · intro _ hFu _
      exact absurd hFu hF
  · refine ⟨iff_of_true ⟨_, rfl⟩ (Or.inl hT), ?_, ?_⟩
    · intro s m hsm
      injection hsm with h1 h2
      exact h1.symm
    · intro hTu _ _
      exact absurd hTu hT

/-- Witness for `recommend_validation` on a concrete valid request. -/
theorem recommend_validation_witness :
    ((∃ m, recommendGET (some "repo") (some "a/b") (some "user") none = .reject 400 m) ↔
      (¬("repo" = "user" ∨ "repo" = "repo") ∨ ¬("user" = "user" ∨ "user" = "repo") ∨
        ("repo" = "repo" ∧ ¬ ('/' ∈ "a/b".data)))) ∧
    (∀ s m, recommendGET (some "repo") (some "a/b") (some "user") none = .reject s m →
      s = 400) ∧
    (("repo" = "user" ∨ "repo" = "repo") → ("user" = "user" ∨ "user" = "repo") →
      ("repo" = "repo" → '/' ∈ "a/b".data) →
      recommendGET (some "repo") (some "a/b") (some "user") none =
        .forward (recommendUrl "repo" "a/b" "user" (orDefault none "10"))) :=
  recommend_validation "repo" "a/b" "user" none (by decide) (by decide) (by decide)

/-- The claim that every repo anchor not in strict `owner/name` form is
rejected fails: the route only tests for the presence of a slash, so
the name `a/`, which is not in `owner/name` form, is forwarded to the
backend rather than rejected. -/
theorem recommend_slash_counterexample :
    recommendGET (some "repo") (some "a/") (some "user") none =
      .forward (recommendUrl "repo" "a/" "user" "10") ∧
    isOwnerRepoForm "a/" = false := by
  constructor
  · decide
  · decide

/-- The claim that no raw internal exception text crosses the boundary
fails: the analyze route's catch branch returns the thrown error's
message verbatim (with no machine-readable error kind field). -/
theorem analyze_raw_leak_counterexample :
    analyzeCatchResponse (some "connect ECONNREFUSED 127.0.0.1:8000") =
      ⟨500, "error", "connect ECONNREFUSED 127.0.0.1:8000"⟩ ∧
    ¬(∀ raw : String, (analyzeCatchResponse (some raw)).message ≠ raw) :=
  ⟨rfl, fun h => h "connect ECONNREFUSED 127.0.0.1:8000" rfl⟩

/-- C9 (amended): the Graph component's `getErrorMessage` maps a known
taxonomy kind to its fixed human-readable title and passes the message
through as description, defaulting the title for unknown kinds; the
analyze route's catch branch, however, returns a status/message pair
whose message is the raw exception text (or the fixed fallback when
the thrown value is not an `Error`) and carries no machine-readable
kind. -/
theorem error_surface_spec :
    (∀ t m : String, (getErrorMessage t m).2 = m) ∧
    (∀ (t m : String) (p : String × String),
      errorMessages.find? (fun q => q.1 == t) = some p →
      (getErrorMessage t m).1 = p.2) ∧
    (∀ t m : String, errorMessages.find? (fun q => q.1 == t) = none →
      (getErrorMessage t m).1 = "未知错误") ∧
    (∀ raw : String, analyzeCatchResponse (some raw) = ⟨500, "error", raw⟩) ∧
    analyzeCatchResponse none = ⟨500, "error", "服务器错误"⟩ := by
  refine ⟨fun t m => rfl, ?_, ?_, fun raw => rfl, rfl⟩
  · intro t m p hp
    unfold getErrorMessage
    rw [hp]
    rfl
  · intro t m hp
    unfold getErrorMessage
    rw [hp]
    rfl

/-- Witness for `error_surface_spec` at a known and an unknown error
kind. -/
theorem error_surface_spec_witness :
    (getErrorMessage "USER_NOT_FOUND" "x").1 = "👤 用户不存在或无法访问" ∧
    (getErrorMessage "SOME_UNKNOWN_KIND" "x").1 = "未知错误" :=
  ⟨error_surface_spec.2.1 "USER_NOT_FOUND" "x"
      ("USER_NOT_FOUND", "👤 用户不存在或无法访问") (by decide),
   error_surface_spec.2.2.1 "SOME_UNKNOWN_KIND" "x" (by decide)⟩

/-- C10: when the `count` query parameter is absent the recommend route
forwards with the default value `"10"`; when present it is forwarded
as given; and the forwarded URL carries the `type`, `name`, `find` and
`count` values passed through `encodeURIComponent` and otherwise
unchanged. -/
theorem count_default_and_forwarding (t n f cv : String)
    (hT : t = "user" ∨ t = "repo") (hF : f = "user" ∨ f = "repo")
    (hn : n ≠ "") (hslash : t = "repo" → '/' ∈ n.data) (hcv : cv ≠ "") :
    recommendGET (some t) (some n) (some f) none =
      .forward (recommendUrl t n f "10") ∧
    recommendGET (some t) (some n) (some f) (some cv) =
      .forward (recommendUrl t n f cv) ∧
    encodeURIComponent "10" = "10" ∧
    recommendUrl t n f "10" =
      recommendBase ++ "/recommend?type=" ++ encodeURIComponent t ++
        "&name=" ++ encodeURIComponent n ++ "&find=" ++ encodeURIComponent f ++
        "&count=" ++ encodeURIComponent "10" := by
  have ht : t ≠ "" := by
    rcases hT with h | h <;> rw [h] <;> decide
  have hf : f ≠ "" := by
    rcases hF with h | h <;> rw [h] <;> decide
  have hnos : ¬ (t = "repo" ∧ ¬ ('/' ∈ n.data)) := by
    rintro ⟨h1, h2⟩
    exact h2 (hslash h1)
  refine ⟨?_, ?_, by decide, rfl⟩
  · rw [recommendGET_reduce t n f none ht hn hf, if_pos hT, if_pos hF, if_neg hnos]
    rfl
  · rw [recommendGET_reduce t n f (some cv) ht hn hf, if_pos hT, if_pos hF, if_neg hnos]
    have : orDefault (some cv) "10" = cv := by simp [orDefault, hcv]
    rw [this]

/-- Witness for `count_default_and_forwarding` on a concrete request. -/
theorem count_default_witness :
    recommendGET (some "user") (some "torvalds") (some "repo") none =
      .forward (recommendUrl "user" "torvalds" "repo" "10") ∧
    recommendGET (some "user") (some "torvalds") (some "repo") (some "5") =
      .forward (recommendUrl "user" "torvalds" "repo" "5") ∧
    encodeURIComponent "10" = "10" ∧
    recommendUrl "user" "torvalds" "repo" "10" =
      recommendBase ++ "/recommend?type=" ++ encodeURIComponent "user" ++
        "&name=" ++ encodeURIComponent "torvalds" ++ "&find=" ++
        encodeURIComponent "repo" ++ "&count=" ++ encodeURIComponent "10" :=
  count_default_and_forwarding "user" "torvalds" "repo" "5"
    (by decide) (by decide) (by decide) (by decide) (by decide)

end OpenChain
